import Mathlib

/-!
Shallow embedding of `src/plotter.py`: a script that reads a comma-delimited
data file into four parallel sequences (x, y, x-uncertainty, y-uncertainty),
fits a line, and computes a reduced chi-squared statistic.

Modelling conventions:
* a text line is a `List Char`; Python's `str.split(DELIMITER)` is `splitChar`;
* Python `float` values are modelled as exact rationals `ℚ`; the builtin
  `float(s)` parse is `parseFloat` (core CPython grammar: optional surrounding
  whitespace, optional sign, digits with optional decimal point and optional
  exponent); a failed parse is `none`, matching the `ValueError` branch;
* an unhandled runtime fault (`IndexError` from too few fields, unpacking a
  2-tuple into four names) is `none` at the result type;
* a division whose real counterpart is undefined (zero denominator, which in
  numpy yields inf/nan rather than a number) is `none` via `qdiv`;
* console output is returned explicitly as a list of printed lines.
-/

namespace Plotter

/-- The delimiter constant `DELIMITER = ','` of the script. -/
def DELIMITER : Char := ','

/-- Python `str.split(sep)` for a one-character separator: splits the
character list at every occurrence of `sep`; the empty string splits to
one empty field. -/
def splitChar (sep : Char) : List Char → List (List Char)
  | [] => [[]]
  | c :: cs =>
    match splitChar sep cs with
    | [] => if c = sep then [[], []] else [[c]]
    | f :: rest => if c = sep then [] :: f :: rest else (c :: f) :: rest

/-- Value of a digit string, most significant first. -/
def digitsVal (ds : List Char) : ℕ :=
  ds.foldl (fun n c => 10 * n + (c.toNat - 48)) 0

/-- Parse the optional exponent suffix of a float literal: either nothing
remains, or `e`/`E` followed by an optional sign and at least one digit,
consuming the whole remainder. -/
def parseExp (m : ℚ) : List Char → Option ℚ
  | [] => some m
  | e :: rest =>
    if e = 'e' ∨ e = 'E' then
      match rest with
      | '+' :: ds =>
        if ds.isEmpty then none
        else if ds.all Char.isDigit then some (m * 10 ^ digitsVal ds) else none
      | '-' :: ds =>
        if ds.isEmpty then none
        else if ds.all Char.isDigit then some (m / 10 ^ digitsVal ds) else none
      | ds =>
        if ds.isEmpty then none
        else if ds.all Char.isDigit then some (m * 10 ^ digitsVal ds) else none
    else none

/-- Parse the mantissa of a float literal: digits with an optional decimal
point, at least one digit present; returns its value and the remainder. -/
def parseMantissa (cs : List Char) : Option (ℚ × List Char) :=
  let intPart := cs.takeWhile Char.isDigit
  let rest1 := cs.dropWhile Char.isDigit
  match rest1 with
  | '.' :: rest2 =>
    let fracPart := rest2.takeWhile Char.isDigit
    let rest3 := rest2.dropWhile Char.isDigit
    if intPart.isEmpty && fracPart.isEmpty then none
    else some ((digitsVal intPart : ℚ) + (digitsVal fracPart : ℚ) / 10 ^ fracPart.length, rest3)
  | _ =>
    if intPart.isEmpty then none
    else some ((digitsVal intPart : ℚ), rest1)

/-- Parse an unsigned float literal (mantissa then exponent). -/
def parseNum (cs : List Char) : Option ℚ :=
  match parseMantissa cs with
  | none => none
  | some (m, rest) => parseExp m rest

/-- Strip whitespace from both ends, as Python `float` does before parsing. -/
def stripWs (cs : List Char) : List Char :=
  ((cs.dropWhile Char.isWhitespace).reverse.dropWhile Char.isWhitespace).reverse

/-- Model of CPython's builtin `float(s)`: `some q` when the string parses
as a float literal (exact rational value), `none` when `float` would raise
`ValueError`. -/
def parseFloat (s : List Char) : Option ℚ :=
  match stripWs s with
  | '+' :: rest => parseNum rest
  | '-' :: rest => (parseNum rest).map (fun q => -q)
  | t => parseNum t

/-- `check_numeric(entry)`: true when `float(entry)` succeeds, false on
`ValueError`. -/
def check_numeric (entry : List Char) : Bool :=
  (parseFloat entry).isSome

/-- `check_uncertainty(uncertainty)`: true iff the uncertainty is strictly
positive (defined in the script but never called on parsed data). -/
def check_uncertainty (uncertainty : ℚ) : Bool :=
  if uncertainty > 0 then true else false

/-- `line.strip('\n')`: remove newline characters from both ends. -/
def stripNL (cs : List Char) : List Char :=
  ((cs.dropWhile (· = '\n')).reverse.dropWhile (· = '\n')).reverse

/-- Result of `validate_line`: Python returns `(False, line_split)` on an
invalid line and `(True, line_floats)` with four floats on a valid one. -/
inductive LineResult where
  | invalid (line_split : List (List Char)) : LineResult
  | valid (x y xerr yerr : ℚ) : LineResult
deriving DecidableEq

/-- The boolean validity flag carried by a `validate_line` result. -/
def LineResult.flag : LineResult → Bool
  | .invalid _ => false
  | .valid _ _ _ _ => true

/-- `validate_line(line)`: split by the delimiter; on the first non-numeric
field print two diagnostics and return `(False, line_split)`; otherwise
convert the first four fields (an `IndexError` — modelled `none` — when
fewer than four fields exist). The first component is the printed output. -/
def validate_line (line : List Char) : List (List Char) × Option LineResult :=
  let line_split := splitChar DELIMITER line
  match line_split.find? (fun entry => ! check_numeric entry) with
  | some entry =>
    (["Line omitted: ".toList ++ stripNL line ++ ".".toList,
      entry ++ " is nonnumerical.".toList],
     some (LineResult.invalid line_split))
  | none =>
    match line_split with
    | f0 :: f1 :: f2 :: f3 :: _ =>
      ([],
       match parseFloat f0, parseFloat f1, parseFloat f2, parseFloat f3 with
       | some a, some b, some c, some d => some (LineResult.valid a b c d)
       | _, _, _, _ => none)
    | _ => ([], none)

/-- Result of `open_file`: the missing-file branch returns a 2-tuple of empty
arrays, the normal branch a 4-tuple; `fault` is an unhandled line fault. -/
inductive OpenResult where
  | pair (x_data y_data : List ℚ) : OpenResult
  | quad (x_data y_data x_err y_err : List ℚ) : OpenResult
  | fault : OpenResult
deriving DecidableEq

/-- The reading loop of `open_file`: iterate lines in order, skipping the
first if the flag is set; append the four parsed values of each valid line
to the four accumulators; an invalid line is skipped; a line fault aborts.
Returns the printed output and, unless a fault occurred, the four arrays. -/
def read_loop (skip_first_line : Bool) (lines : List (List Char))
    (x_data y_data x_err y_err : List ℚ) :
    List (List Char) × Option (List ℚ × List ℚ × List ℚ × List ℚ) :=
  match lines with
  | [] => ([], some (x_data, y_data, x_err, y_err))
  | line :: rest =>
    if skip_first_line then read_loop false rest x_data y_data x_err y_err
    else
      match validate_line line with
      | (out, none) => (out, none)
      | (out, some (LineResult.valid a b c d)) =>
        let r := read_loop false rest (x_data ++ [a]) (y_data ++ [b])
          (x_err ++ [c]) (y_err ++ [d])
        (out ++ r.1, r.2)
      | (out, some (LineResult.invalid _)) =>
        let r := read_loop false rest x_data y_data x_err y_err
        (out ++ r.1, r.2)

/-- `open_file(file_name, skip_first_line)`: the file system is passed in as
`contents` (`none` models `FileNotFoundError`, `some lines` the file's lines).
On a missing file print two diagnostics and return the two empty arrays; on
success run the reading loop over the lines. -/
def open_file (file_name : List Char) (contents : Option (List (List Char)))
    (skip_first_line : Bool) : List (List Char) × OpenResult :=
  match contents with
  | none =>
    (["File '".toList ++ file_name ++ "' cannot be found.".toList,
      "Check it is in the correct directory.".toList],
     OpenResult.pair [] [])
  | some lines =>
    match read_loop skip_first_line lines [] [] [] [] with
    | (out, none) => (out, OpenResult.fault)
    | (out, some (x, y, xe, ye)) => (out, OpenResult.quad x y xe ye)

/-- The unpacking `x_data, y_data, x_err, y_err = open_file()` in `main`:
succeeds only on a 4-tuple; a 2-tuple raises `ValueError` (modelled `none`). -/
def unpack4 : OpenResult → Option (List ℚ × List ℚ × List ℚ × List ℚ)
  | OpenResult.quad x y xe ye => some (x, y, xe, ye)
  | _ => none

/-- `new_f(B, x) = B[0]*x + B[1]`, the linear model. -/
def new_f (B : ℚ × ℚ) (x : ℚ) : ℚ :=
  B.1 * x + B.2

/-- Division that is `none` exactly when the denominator is zero (where the
numeric code produces inf/nan, an undefined result). -/
def qdiv (a b : ℚ) : Option ℚ :=
  if b = 0 then none else some (a / b)

/-- The elementwise terms `(new_f(parameters, x) - y)**2 / yerr**2` of the
chi-squared sum; `none` when a division is undefined or (as numpy broadcast
rejects) the arrays have mismatched lengths. -/
def chi_terms (parameters : ℚ × ℚ) :
    List ℚ → List ℚ → List ℚ → Option (List ℚ)
  | [], [], [] => some []
  | x :: xs, y :: ys, u :: us =>
    match qdiv ((new_f parameters x - y) ^ 2) (u ^ 2), chi_terms parameters xs ys us with
    | some t, some ts => some (t :: ts)
    | _, _ => none
  | _, _, _ => none

/-- `chi_squared_function(x_data, y_data, y_uncertainties, parameters)`:
`np.sum((new_f(parameters, x_data) - y_data)**2 / y_uncertainties**2)`. -/
def chi_squared_function (x_data y_data y_uncertainties : List ℚ)
    (parameters : ℚ × ℚ) : Option ℚ :=
  (chi_terms parameters x_data y_data y_uncertainties).map List.sum

/-- The reduced chi-squared computed in `main`:
`chi_squared / (len(x_data) - 2)`. -/
def reduced_chi (x_data y_data y_err : List ℚ) (beta : ℚ × ℚ) : Option ℚ :=
  match chi_squared_function x_data y_data y_err beta with
  | none => none
  | some c => qdiv c ((x_data.length : ℚ) - 2)

/-- The `i`-th delimiter-split field of a line. -/
def fieldOf (line : List Char) (i : ℕ) : List Char :=
  (splitChar DELIMITER line).getD i []

/-- The parsed float value of the `i`-th field of a line. -/
def fieldVal (line : List Char) (i : ℕ) : ℚ :=
  (parseFloat (fieldOf line i)).getD 0

/-- Whether `validate_line` accepts the line (returns the `True` tuple). -/
def isValidLine (line : List Char) : Bool :=
  match (validate_line line).2 with
  | some (LineResult.valid _ _ _ _) => true
  | _ => false

/-- Number of lines the validator rejects (returns the `False` tuple) in a
list of lines. -/
def invalid_count (lines : List (List Char)) : ℕ :=
  (lines.filter (fun l => ! isValidLine l)).length

/-- The four parsed floats of a line the validator accepts, if any. -/
def lineFloats (line : List Char) : Option (ℚ × ℚ × ℚ × ℚ) :=
  match (validate_line line).2 with
  | some (LineResult.valid a b c d) => some (a, b, c, d)
  | _ => none

/-- The x value a valid line contributes to the loader's first array. -/
def xOf (line : List Char) : ℚ := ((lineFloats line).getD (0, 0, 0, 0)).1

/-- The y value a valid line contributes to the loader's second array. -/
def yOf (line : List Char) : ℚ := ((lineFloats line).getD (0, 0, 0, 0)).2.1

/-- The x uncertainty a valid line contributes to the loader's third array. -/
def xeOf (line : List Char) : ℚ := ((lineFloats line).getD (0, 0, 0, 0)).2.2.1

/-- The y uncertainty a valid line contributes to the loader's fourth array. -/
def yeOf (line : List Char) : ℚ := ((lineFloats line).getD (0, 0, 0, 0)).2.2.2

/-- The chi-squared statistic as the spec describes it: the sum over all
points of the squared residual between the model prediction and the observed
y, divided by the squared y-uncertainty (total field division). -/
def chi_squared_spec_sum (x_data y_data y_err : List ℚ) (B : ℚ × ℚ) : ℚ :=
  ((List.range x_data.length).map
    (fun i => (new_f B (x_data.getD i 0) - y_data.getD i 0) ^ 2
      / (y_err.getD i 0) ^ 2)).sum

/-! ### Helper lemmas -/

theorem exists_four {α : Type} (l : List α) (h : 4 ≤ l.length) :
    ∃ a b c d t, l = a :: b :: c :: d :: t := by
  rcases l with _ | ⟨a, _ | ⟨b, _ | ⟨c, _ | ⟨d, t⟩⟩⟩⟩
  · simp at h
  · simp at h
  · simp at h
  · simp at h
  · exact ⟨a, b, c, d, t, rfl⟩

theorem validate_line_valid (line : List Char)
    (hlen : 4 ≤ (splitChar DELIMITER line).length)
    (hnum : ∀ e ∈ splitChar DELIMITER line, check_numeric e = true) :
    validate_line line =
      ([], some (LineResult.valid (fieldVal line 0) (fieldVal line 1)
        (fieldVal line 2) (fieldVal line 3))) := by
  obtain ⟨f0, f1, f2, f3, t, hsp⟩ := exists_four _ hlen
  have hfind : (splitChar DELIMITER line).find? (fun e => ! check_numeric e) = none := by
    rw [List.find?_eq_none]
    intro x hx
    simp [hnum x hx]
  obtain ⟨a, ha⟩ := Option.isSome_iff_exists.mp (hnum f0 (by rw [hsp]; simp))
  obtain ⟨b, hb⟩ := Option.isSome_iff_exists.mp (hnum f1 (by rw [hsp]; simp))
  obtain ⟨c, hc⟩ := Option.isSome_iff_exists.mp (hnum f2 (by rw [hsp]; simp))
  obtain ⟨d, hd⟩ := Option.isSome_iff_exists.mp (hnum f3 (by rw [hsp]; simp))
  have hf0 : fieldVal line 0 = a := by simp [fieldVal, fieldOf, hsp, ha]
  have hf1 : fieldVal line 1 = b := by simp [fieldVal, fieldOf, hsp, hb]
  have hf2 : fieldVal line 2 = c := by simp [fieldVal, fieldOf, hsp, hc]
  have hf3 : fieldVal line 3 = d := by simp [fieldVal, fieldOf, hsp, hd]
  rw [hf0, hf1, hf2, hf3]
  rw [hsp] at hfind
  simp [validate_line, hsp, hfind, ha, hb, hc, hd]

theorem validate_line_isSome (line : List Char)
    (hlen : 4 ≤ (splitChar DELIMITER line).length) :
    (validate_line line).2 ≠ none := by
  cases hfind : (splitChar DELIMITER line).find? (fun e => ! check_numeric e) with
  | some e => simp [validate_line, hfind]
  | none =>
    have hnum : ∀ e ∈ splitChar DELIMITER line, check_numeric e = true := by
      intro e he
      have := List.find?_eq_none.mp hfind e he
      simpa using this
    rw [validate_line_valid line hlen hnum]
    simp

theorem read_loop_false_eq (lines : List (List Char))
    (h : ∀ l ∈ lines, (validate_line l).2 ≠ none) :
    ∀ x y xe ye : List ℚ,
    (read_loop false lines x y xe ye).2 =
      some (x ++ (lines.filter isValidLine).map xOf,
            y ++ (lines.filter isValidLine).map yOf,
            xe ++ (lines.filter isValidLine).map xeOf,
            ye ++ (lines.filter isValidLine).map yeOf) := by
  induction lines with
  | nil => intro x y xe ye; simp [read_loop]
  | cons l rest ih =>
    intro x y xe ye
    have hl : (validate_line l).2 ≠ none := h l (by simp)
    have hrest := fun l' hl' => h l' (List.mem_cons_of_mem l hl')
    rcases hv : validate_line l with ⟨o, res⟩
    have hres : (validate_line l).2 = res := by rw [hv]
    match res, hl with
    | some (LineResult.invalid fs), _ =>
      have hvalid : isValidLine l = false := by
        simp [isValidLine, hres]
      simp only [read_loop, Bool.false_eq_true, if_false, hv, List.filter_cons, hvalid]
      exact ih hrest x y xe ye
    | some (LineResult.valid a b c d), _ =>
      have hvalid : isValidLine l = true := by
        simp [isValidLine, hres]
      have hx : xOf l = a := by simp [xOf, lineFloats, hres]
      have hy : yOf l = b := by simp [yOf, lineFloats, hres]
      have hxe : xeOf l = c := by simp [xeOf, lineFloats, hres]
      have hye : yeOf l = d := by simp [yeOf, lineFloats, hres]
      simp only [read_loop, Bool.false_eq_true, if_false, hv, List.filter_cons, hvalid,
        if_true, List.map_cons, hx, hy, hxe, hye]
      rw [ih hrest (x ++ [a]) (y ++ [b]) (xe ++ [c]) (ye ++ [d])]
      simp

theorem read_loop_some_len (lines : List (List Char)) :
    ∀ (s : Bool) (x y xe ye : List ℚ) (out : List (List Char))
      (r : List ℚ × List ℚ × List ℚ × List ℚ),
    read_loop s lines x y xe ye = (out, some r) →
    x.length = y.length → y.length = xe.length → xe.length = ye.length →
    r.1.length = r.2.1.length ∧ r.2.1.length = r.2.2.1.length ∧
      r.2.2.1.length = r.2.2.2.length := by
  induction lines with
  | nil =>
    intro s x y xe ye out r hr h1 h2 h3
    simp [read_loop] at hr
    obtain ⟨-, hr⟩ := hr
    rw [← hr]
    exact ⟨h1, h2, h3⟩
  | cons l rest ih =>
    intro s x y xe ye out r hr h1 h2 h3
    cases s with
    | true =>
      simp only [read_loop, if_true] at hr
      exact ih false x y xe ye out r hr h1 h2 h3
    | false =>
      rcases hv : validate_line l with ⟨o, res⟩
      rw [read_loop] at hr
      simp only [Bool.false_eq_true, if_false, hv] at hr
      match res, hr with
      | none, hr => simp at hr
      | some (LineResult.invalid fs), hr =>
        rcases hrr : read_loop false rest x y xe ye with ⟨o2, r2⟩
        rw [hrr] at hr
        simp at hr
        exact ih false x y xe ye o2 r (by rw [hrr, hr.2]) h1 h2 h3
      | some (LineResult.valid a b c d), hr =>
        rcases hrr : read_loop false rest (x ++ [a]) (y ++ [b]) (xe ++ [c]) (ye ++ [d])
          with ⟨o2, r2⟩
        simp only [] at hr
        rw [hrr] at hr
        simp at hr
        exact ih false (x ++ [a]) (y ++ [b]) (xe ++ [c]) (ye ++ [d]) o2 r
          (by rw [hrr, hr.2]) (by simp [h1]) (by simp [h2]) (by simp [h3])

theorem splitChar_no_sep (sep : Char) (l : List Char) (h : sep ∉ l) :
    splitChar sep l = [l] := by
  induction l with
  | nil => rfl
  | cons c cs ih =>
    have hc : ¬ c = sep := fun hcs => h (hcs ▸ List.mem_cons_self c cs)
    have hcs : sep ∉ cs := fun hm => h (List.mem_cons_of_mem c hm)
    rw [splitChar, ih hcs]
    simp [hc]

theorem parseFloat_ws_none (l : List Char)
    (h : ∀ c ∈ l, c.isWhitespace = true) : parseFloat l = none := by
  have hd : l.dropWhile Char.isWhitespace = [] := List.dropWhile_eq_nil_iff.mpr h
  have hs : stripWs l = [] := by simp [stripWs, hd]
  rw [parseFloat, hs]
  rfl

theorem length_filter_split {α : Type} (p : α → Bool) (l : List α) :
    (l.filter p).length + (l.filter (fun a => ! p a)).length = l.length := by
  induction l with
  | nil => rfl
  | cons a t ih =>
    cases hpa : p a <;> simp [List.filter_cons, hpa, ← ih] <;> omega

theorem validate_line_invalid (line : List Char) (entry : List Char)
    (hf : (splitChar DELIMITER line).find? (fun e => ! check_numeric e) = some entry) :
    validate_line line =
      (["Line omitted: ".toList ++ stripNL line ++ ".".toList,
        entry ++ " is nonnumerical.".toList],
       some (LineResult.invalid (splitChar DELIMITER line))) := by
  simp [validate_line, hf]

theorem chi_terms_eq (B : ℚ × ℚ) :
    ∀ x y yu : List ℚ, x.length = y.length → y.length = yu.length →
    (∀ u ∈ yu, u ≠ 0) →
    chi_terms B x y yu = some ((List.range x.length).map
      (fun i => (new_f B (x.getD i 0) - y.getD i 0) ^ 2 / (yu.getD i 0) ^ 2)) := by
  intro x
  induction x with
  | nil =>
    intro y yu h1 h2 _
    rcases y with _ | ⟨b, ys⟩
    · rcases yu with _ | ⟨u, us⟩
      · simp [chi_terms]
      · simp at h2
    · simp at h1
  | cons a xs ih =>
    intro y yu h1 h2 hnz
    rcases y with _ | ⟨b, ys⟩
    · simp at h1
    rcases yu with _ | ⟨u, us⟩
    · simp at h2
    have hu : u ≠ 0 := hnz u (by simp)
    have hu2 : u ^ 2 ≠ 0 := pow_ne_zero 2 hu
    have htail := ih ys us (by simpa using h1) (by simpa using h2)
      (fun v hv => hnz v (List.mem_cons_of_mem u hv))
    rw [chi_terms, htail]
    simp only [qdiv, if_neg hu2]
    simp [List.range_succ_eq_map, List.map_map, Function.comp]

theorem chi_terms_zero_none (B : ℚ × ℚ) :
    ∀ x y yu : List ℚ, x.length = y.length → y.length = yu.length →
    (∃ u ∈ yu, u = 0) → chi_terms B x y yu = none := by
  intro x
  induction x with
  | nil =>
    intro y yu h1 h2 hz
    rcases y with _ | ⟨b, ys⟩
    · rcases yu with _ | ⟨u, us⟩
      · simp at hz
      · simp at h2
    · simp at h1
  | cons a xs ih =>
    intro y yu h1 h2 hz
    rcases y with _ | ⟨b, ys⟩
    · simp at h1
    rcases yu with _ | ⟨u, us⟩
    · simp at h2
    rw [chi_terms]
    rcases hz with ⟨v, hv, hv0⟩
    rcases List.mem_cons.mp hv with hv1 | hv2
    · have : u = 0 := by rw [← hv1, hv0]
      subst this
      simp [qdiv]
    · rw [ih ys us (by simpa using h1) (by simpa using h2) ⟨v, hv2, hv0⟩]
      rcases hq : qdiv ((new_f B a - b) ^ 2) (u ^ 2) with - | t <;> simp

/-! ### Claim theorems -/

/-- Claim C2: on a line whose delimiter-split fields are all numeric and
number at least four, `validate_line` returns the validity flag true together
with exactly the first four fields converted to floats, in order; fields
beyond the fourth have no effect on the returned floats (the result is a
function of the first four fields only). -/
theorem validate_line_numeric_fields (line : List Char)
    (hlen : 4 ≤ (splitChar DELIMITER line).length)
    (hnum : ∀ e ∈ splitChar DELIMITER line, check_numeric e = true) :
    validate_line line =
      ([], some (LineResult.valid (fieldVal line 0) (fieldVal line 1)
        (fieldVal line 2) (fieldVal line 3))) ∧
    (LineResult.valid (fieldVal line 0) (fieldVal line 1)
      (fieldVal line 2) (fieldVal line 3)).flag = true :=
  ⟨validate_line_valid line hlen hnum, rfl⟩

/-- Witness for C2: the five-field line `1,2,3,4,5` validates to the first
four floats `1, 2, 3, 4`; the fifth field is ignored. -/
theorem validate_line_numeric_fields_witness :
    validate_line "1,2,3,4,5".toList = ([], some (LineResult.valid 1 2 3 4)) ∧
    (LineResult.valid (1 : ℚ) 2 3 4).flag = true := by
  have h := validate_line_numeric_fields "1,2,3,4,5".toList (by decide) (by decide)
  exact ⟨h.1.trans (by decide), by decide⟩

/-- Claim C3: on a line containing at least one non-numeric field,
`validate_line` returns the validity flag false together with the original
delimiter-split fields, and prints a diagnostic naming the first offending
field (the one `find?` locates; no later field is reported). -/
theorem validate_line_nonnumeric_field (line : List Char)
    (h : ∃ f ∈ splitChar DELIMITER line, check_numeric f = false) :
    ∃ entry, (splitChar DELIMITER line).find? (fun e => ! check_numeric e) = some entry ∧
      check_numeric entry = false ∧
      validate_line line =
        (["Line omitted: ".toList ++ stripNL line ++ ".".toList,
          entry ++ " is nonnumerical.".toList],
         some (LineResult.invalid (splitChar DELIMITER line))) := by
  obtain ⟨f, hf, hnf⟩ := h
  have hs : ((splitChar DELIMITER line).find? (fun e => ! check_numeric e)).isSome := by
    rw [List.find?_isSome]
    exact ⟨f, hf, by simp [hnf]⟩
  obtain ⟨entry, he⟩ := Option.isSome_iff_exists.mp hs
  refine ⟨entry, he, ?_, validate_line_invalid line entry he⟩
  have := List.find?_some he
  simpa using this

/-- Witness for C3: the line `1,a,3,4` is rejected with the diagnostic
naming `a`, and the split fields are returned unchanged. -/
theorem validate_line_nonnumeric_field_witness :
    ∃ entry, (splitChar DELIMITER "1,a,3,4".toList).find?
        (fun e => ! check_numeric e) = some entry ∧
      check_numeric entry = false ∧
      validate_line "1,a,3,4".toList =
        (["Line omitted: ".toList ++ stripNL "1,a,3,4".toList ++ ".".toList,
          entry ++ " is nonnumerical.".toList],
         some (LineResult.invalid (splitChar DELIMITER "1,a,3,4".toList))) :=
  validate_line_nonnumeric_field "1,a,3,4".toList ⟨"a".toList, by decide, by decide⟩

/-- Claim C4: on a missing file the loader prints exactly the two diagnostic
lines and returns the 2-tuple of empty sequences rather than a 4-tuple; the
caller's four-way unpacking of that result faults, and no data is read. -/
theorem open_file_missing_file (fn : List Char) (skip : Bool) :
    open_file fn none skip =
      (["File '".toList ++ fn ++ "' cannot be found.".toList,
        "Check it is in the correct directory.".toList],
       OpenResult.pair [] []) ∧
    (open_file fn none skip).1.length = 2 ∧
    unpack4 (open_file fn none skip).2 = none :=
  ⟨rfl, rfl, rfl⟩

/-- Claim C8: on a line whose fields are all numeric but fewer than four,
`validate_line` faults (unhandled index out of range, modelled `none`);
whenever the line has at least four fields this fault branch is unreachable. -/
theorem validate_line_short_line (line : List Char) :
    ((∀ e ∈ splitChar DELIMITER line, check_numeric e = true) →
      (splitChar DELIMITER line).length < 4 → (validate_line line).2 = none) ∧
    (4 ≤ (splitChar DELIMITER line).length → (validate_line line).2 ≠ none) := by
  constructor
  · intro hnum hlen
    have hfind : (splitChar DELIMITER line).find? (fun e => ! check_numeric e) = none := by
      rw [List.find?_eq_none]
      intro e he
      simp [hnum e he]
    rcases hsp : splitChar DELIMITER line with _ | ⟨a, _ | ⟨b, _ | ⟨c, _ | ⟨d, t⟩⟩⟩⟩
    · rw [hsp] at hfind
      simp [validate_line, hsp, hfind]
    · rw [hsp] at hfind
      simp [validate_line, hsp, hfind]
    · rw [hsp] at hfind
      simp [validate_line, hsp, hfind]
    · rw [hsp] at hfind
      simp [validate_line, hsp, hfind]
    · rw [hsp] at hlen
      simp only [List.length_cons] at hlen
      omega
  · exact validate_line_isSome line

/-- Witness for C8: the all-numeric three-field line `1,2,3` faults, while
the four-field line `7,8,9,10` does not. -/
theorem validate_line_short_line_witness :
    (validate_line "1,2,3".toList).2 = none ∧
    (validate_line "7,8,9,10".toList).2 ≠ none :=
  ⟨(validate_line_short_line "1,2,3".toList).1 (by decide) (by decide),
   (validate_line_short_line "7,8,9,10".toList).2 (by decide)⟩

/-- Claim C10: an empty or whitespace-only line does not fault: the split
yields the single original field, which fails numeric conversion, so the
validator returns the invalid tuple and the reading loop appends nothing. -/
theorem blank_line_skipped (line : List Char)
    (h : ∀ c ∈ line, c.isWhitespace = true) :
    splitChar DELIMITER line = [line] ∧
    check_numeric line = false ∧
    (validate_line line).2 = some (LineResult.invalid [line]) ∧
    ∀ (rest : List (List Char)) (x y xe ye : List ℚ),
      (read_loop false (line :: rest) x y xe ye).2 =
        (read_loop false rest x y xe ye).2 := by
  have hsep : DELIMITER ∉ line := by
    intro hm
    exact absurd (h DELIMITER hm) (by decide)
  have hsp := splitChar_no_sep DELIMITER line hsep
  have hcn : check_numeric line = false := by
    rw [check_numeric, parseFloat_ws_none line h]
    rfl
  have hfind : (splitChar DELIMITER line).find? (fun e => ! check_numeric e) = some line := by
    rw [hsp]
    simp [hcn]
  have hv := validate_line_invalid line line hfind
  rw [hsp] at hv
  refine ⟨hsp, hcn, by rw [hv], ?_⟩
  intro rest x y xe ye
  rw [read_loop]
  simp only [Bool.false_eq_true, if_false, hv]

/-- Witness for C10: the single-space line is split to itself, fails the
numeric check, validates to the invalid tuple, and contributes nothing to
the accumulating arrays. -/
theorem blank_line_skipped_witness :
    splitChar DELIMITER " ".toList = [" ".toList] ∧
    check_numeric " ".toList = false ∧
    (validate_line " ".toList).2 = some (LineResult.invalid [" ".toList]) ∧
    (read_loop false [" ".toList, "1,2,3,4".toList] [] [] [] []).2 =
      (read_loop false ["1,2,3,4".toList] [] [] [] []).2 := by
  have h := blank_line_skipped " ".toList (by decide)
  exact ⟨h.1, h.2.1, h.2.2.1, h.2.2.2 ["1,2,3,4".toList] [] [] [] []⟩

/-- Claim C1: loading a synthetic file whose every line has exactly four
comma-delimited numeric fields (header-skip flag false) returns the 4-tuple
of sequences, each of length N, whose i-th entries are exactly the parsed
floats of the corresponding fields of the i-th line, in file order. -/
theorem open_file_roundtrip (fn : List Char) (lines : List (List Char))
    (h : ∀ l ∈ lines, (splitChar DELIMITER l).length = 4 ∧
      ∀ e ∈ splitChar DELIMITER l, check_numeric e = true) :
    (open_file fn (some lines) false).2 =
      OpenResult.quad (lines.map (fun l => fieldVal l 0))
        (lines.map (fun l => fieldVal l 1))
        (lines.map (fun l => fieldVal l 2))
        (lines.map (fun l => fieldVal l 3)) ∧
    (lines.map (fun l => fieldVal l 0)).length = lines.length ∧
    (lines.map (fun l => fieldVal l 1)).length = lines.length ∧
    (lines.map (fun l => fieldVal l 2)).length = lines.length ∧
    (lines.map (fun l => fieldVal l 3)).length = lines.length := by
  have hval : ∀ l ∈ lines, validate_line l =
      ([], some (LineResult.valid (fieldVal l 0) (fieldVal l 1)
        (fieldVal l 2) (fieldVal l 3))) :=
    fun l hl => validate_line_valid l (by rw [(h l hl).1]) ((h l hl).2)
  have hne : ∀ l ∈ lines, (validate_line l).2 ≠ none := by
    intro l hl
    rw [hval l hl]
    simp
  have hfl : lines.filter isValidLine = lines :=
    List.filter_eq_self.mpr (fun l hl => by simp [isValidLine, hval l hl])
  have hm0 : (lines.filter isValidLine).map xOf = lines.map (fun l => fieldVal l 0) := by
    rw [hfl]
    exact List.map_congr_left (fun l hl => by simp [xOf, lineFloats, hval l hl])
  have hm1 : (lines.filter isValidLine).map yOf = lines.map (fun l => fieldVal l 1) := by
    rw [hfl]
    exact List.map_congr_left (fun l hl => by simp [yOf, lineFloats, hval l hl])
  have hm2 : (lines.filter isValidLine).map xeOf = lines.map (fun l => fieldVal l 2) := by
    rw [hfl]
    exact List.map_congr_left (fun l hl => by simp [xeOf, lineFloats, hval l hl])
  have hm3 : (lines.filter isValidLine).map yeOf = lines.map (fun l => fieldVal l 3) := by
    rw [hfl]
    exact List.map_congr_left (fun l hl => by simp [yeOf, lineFloats, hval l hl])
  have hrl := read_loop_false_eq lines hne [] [] [] []
  rcases hr : read_loop false lines [] [] [] [] with ⟨o, res⟩
  rw [hr] at hrl
  simp only [List.nil_append] at hrl
  rw [hm0, hm1, hm2, hm3] at hrl
  rw [hrl] at hr
  refine ⟨?_, by simp, by simp, by simp, by simp⟩
  simp [open_file, hr]

/-- Witness for C1: a two-line synthetic file round-trips to the four
field-wise sequences in order. -/
theorem open_file_roundtrip_witness :
    (open_file "f".toList
      (some ["1,2,3,4".toList, "5,6,7.5,8e1".toList]) false).2 =
      OpenResult.quad
        (["1,2,3,4".toList, "5,6,7.5,8e1".toList].map (fun l => fieldVal l 0))
        (["1,2,3,4".toList, "5,6,7.5,8e1".toList].map (fun l => fieldVal l 1))
        (["1,2,3,4".toList, "5,6,7.5,8e1".toList].map (fun l => fieldVal l 2))
        (["1,2,3,4".toList, "5,6,7.5,8e1".toList].map (fun l => fieldVal l 3)) ∧
    (["1,2,3,4".toList, "5,6,7.5,8e1".toList].map (fun l => fieldVal l 0)).length = 2 ∧
    (["1,2,3,4".toList, "5,6,7.5,8e1".toList].map (fun l => fieldVal l 1)).length = 2 ∧
    (["1,2,3,4".toList, "5,6,7.5,8e1".toList].map (fun l => fieldVal l 2)).length = 2 ∧
    (["1,2,3,4".toList, "5,6,7.5,8e1".toList].map (fun l => fieldVal l 3)).length = 2 :=
  open_file_roundtrip "f".toList ["1,2,3,4".toList, "5,6,7.5,8e1".toList] (by decide)

/-- Claim C5: with the header flag set the loader skips exactly the first
line; the valid lines among the rest are appended in file order and each
returned sequence has length (total lines − 1 − invalid lines). -/
theorem open_file_header_skip (fn : List Char) (lines : List (List Char))
    (h1 : 1 ≤ lines.length)
    (h2 : ∀ l ∈ lines.drop 1, (validate_line l).2 ≠ none) :
    (open_file fn (some lines) true).2 =
      OpenResult.quad (((lines.drop 1).filter isValidLine).map xOf)
        (((lines.drop 1).filter isValidLine).map yOf)
        (((lines.drop 1).filter isValidLine).map xeOf)
        (((lines.drop 1).filter isValidLine).map yeOf) ∧
    (((lines.drop 1).filter isValidLine).map xOf).length =
      lines.length - 1 - invalid_count (lines.drop 1) := by
  rcases lines with _ | ⟨l0, rest⟩
  · simp at h1
  have h2' : ∀ l ∈ rest, (validate_line l).2 ≠ none := by
    intro l hl
    exact h2 l (by simpa using hl)
  have hrl := read_loop_false_eq rest h2' [] [] [] []
  rcases hr : read_loop false rest [] [] [] [] with ⟨o, res⟩
  rw [hr] at hrl
  simp only [List.nil_append] at hrl
  rw [hrl] at hr
  constructor
  · have hskip : read_loop true (l0 :: rest) [] [] [] [] =
        read_loop false rest [] [] [] [] := by
      rw [read_loop]
      simp
    simp [open_file, hskip, hr]
  · simp only [List.length_map, List.length_cons, List.drop_succ_cons, List.drop_zero,
      invalid_count]
    have := length_filter_split isValidLine rest
    omega

/-- Witness for C5: a three-line file with header flag set yields sequences
of length 3 − 1 − 1 = 1 (one valid data line, one invalid). -/
theorem open_file_header_skip_witness :
    (open_file "f".toList
      (some ["h".toList, "1,2,3,4".toList, "x,y".toList]) true).2 =
      OpenResult.quad
        (((["h".toList, "1,2,3,4".toList, "x,y".toList].drop 1).filter isValidLine).map xOf)
        (((["h".toList, "1,2,3,4".toList, "x,y".toList].drop 1).filter isValidLine).map yOf)
        (((["h".toList, "1,2,3,4".toList, "x,y".toList].drop 1).filter isValidLine).map xeOf)
        (((["h".toList, "1,2,3,4".toList, "x,y".toList].drop 1).filter isValidLine).map yeOf) ∧
    (((["h".toList, "1,2,3,4".toList, "x,y".toList].drop 1).filter isValidLine).map xOf).length =
      3 - 1 - invalid_count (["h".toList, "1,2,3,4".toList, "x,y".toList].drop 1) :=
  open_file_header_skip "f".toList ["h".toList, "1,2,3,4".toList, "x,y".toList]
    (by decide) (by decide)

/-- Claim C9: whenever the loader's success path returns a 4-tuple, the four
sequences have equal length (each loop step appends to all four or to none). -/
theorem open_file_parallel_lengths (fn : List Char) (lines : List (List Char))
    (skip : Bool) (xs ys xes yes : List ℚ)
    (h : (open_file fn (some lines) skip).2 = OpenResult.quad xs ys xes yes) :
    xs.length = ys.length ∧ ys.length = xes.length ∧ xes.length = yes.length := by
  rcases hr : read_loop skip lines [] [] [] [] with ⟨o, res⟩
  simp only [open_file] at h
  rw [hr] at h
  rcases res with - | ⟨rx, ry, rxe, rye⟩
  · simp at h
  · simp only [] at h
    have hlen := read_loop_some_len lines skip [] [] [] [] o (rx, ry, rxe, rye) hr rfl rfl rfl
    simp only [] at hlen
    obtain ⟨e1, e2, e3, e4⟩ : rx = xs ∧ ry = ys ∧ rxe = xes ∧ rye = yes := by
      simpa using h
    rw [← e1, ← e2, ← e3, ← e4]
    exact hlen

/-- Witness for C9: a concrete one-line file returns four length-1 arrays. -/
theorem open_file_parallel_lengths_witness :
    [(1 : ℚ)].length = [(2 : ℚ)].length ∧
    [(2 : ℚ)].length = [(3 : ℚ)].length ∧
    [(3 : ℚ)].length = [(4 : ℚ)].length :=
  open_file_parallel_lengths "f".toList ["1,2,3,4".toList] false [1] [2] [3] [4] (by decide)

/-- Claim C6: for equal-length data with nonzero y-uncertainties,
`chi_squared_function` returns the sum over all points of the squared
residual between the linear prediction and the observed y divided by the
squared y-uncertainty, and the reduced chi-squared of `main` is that sum
divided by (N − 2); for N = 5 points fitted exactly it equals 0. -/
theorem chi_squared_reduced_spec (x y yu : List ℚ) (B : ℚ × ℚ)
    (hxy : x.length = y.length) (hyu : y.length = yu.length)
    (hnz : ∀ u ∈ yu, u ≠ 0) (hn : x.length ≠ 2) :
    chi_squared_function x y yu B = some (chi_squared_spec_sum x y yu B) ∧
    reduced_chi x y yu B =
      some (chi_squared_spec_sum x y yu B / ((x.length : ℚ) - 2)) ∧
    (x.length = 5 → (∀ i < 5, new_f B (x.getD i 0) = y.getD i 0) →
      reduced_chi x y yu B = some 0) := by
  have hterms := chi_terms_eq B x y yu hxy hyu hnz
  have hchi : chi_squared_function x y yu B = some (chi_squared_spec_sum x y yu B) := by
    rw [chi_squared_function, hterms]
    rfl
  have hden : ((x.length : ℚ) - 2) ≠ 0 := by
    intro h0
    apply hn
    have h2 : (x.length : ℚ) = 2 := by linarith
    exact_mod_cast h2
  have hred : reduced_chi x y yu B =
      some (chi_squared_spec_sum x y yu B / ((x.length : ℚ) - 2)) := by
    simp [reduced_chi, hchi, qdiv, hden]
  refine ⟨hchi, hred, ?_⟩
  intro h5 hfit
  rw [hred]
  have hsum : chi_squared_spec_sum x y yu B = 0 := by
    rw [chi_squared_spec_sum]
    apply List.sum_eq_zero
    intro q hq
    rw [List.mem_map] at hq
    obtain ⟨i, hi, hiq⟩ := hq
    rw [List.mem_range, h5] at hi
    rw [← hiq, hfit i hi]
    simp
  rw [hsum]
  simp

/-- Witness for C6: five exactly fitted points y = 2x + 1 with unit
uncertainties give reduced chi-squared 0. -/
theorem chi_squared_reduced_spec_witness :
    reduced_chi [0, 1, 2, 3, 4] [1, 3, 5, 7, 9] [1, 1, 1, 1, 1] (2, 1) = some 0 := by
  have h := chi_squared_reduced_spec [0, 1, 2, 3, 4] [1, 3, 5, 7, 9] [1, 1, 1, 1, 1] (2, 1)
    (by decide) (by decide) (by decide) (by decide)
  exact h.2.2 (by decide) (by
    intro i hi
    interval_cases i <;> norm_num [new_f])

/-- Claim C7: the goodness-of-fit computation yields an undefined result
(division by zero, modelled `none`) whenever some y-uncertainty is zero, and
the reduced chi-squared is undefined whenever exactly two points are present
(zero degrees of freedom). -/
theorem chi_squared_division_by_zero (x y yu : List ℚ) (B : ℚ × ℚ)
    (hxy : x.length = y.length) (hyu : y.length = yu.length) :
    ((∃ u ∈ yu, u = 0) → chi_squared_function x y yu B = none) ∧
    (x.length = 2 → reduced_chi x y yu B = none) := by
  constructor
  · intro hz
    rw [chi_squared_function, chi_terms_zero_none B x y yu hxy hyu hz]
    rfl
  · intro h2
    rcases hc : chi_squared_function x y yu B with - | c
    · simp [reduced_chi, hc]
    · have hd : ((x.length : ℚ) - 2) = 0 := by
        rw [h2]
        norm_num
      simp [reduced_chi, hc, qdiv, hd]

/-- Witness for C7: a two-point data set with one zero y-uncertainty makes
both the chi-squared and the reduced chi-squared undefined. -/
theorem chi_squared_division_by_zero_witness :
    chi_squared_function [1, 2] [1, 2] [1, 0] (1, 0) = none ∧
    reduced_chi [1, 2] [1, 2] [1, 0] (1, 0) = none := by
  have h := chi_squared_division_by_zero [1, 2] [1, 2] [1, 0] (1, 0) (by decide) (by decide)
  exact ⟨h.1 ⟨0, by decide, rfl⟩, h.2 (by decide)⟩

end Plotter
